import Mathlib

/-!
Shallow embedding of the just-talk push-to-talk dictation engine
(src/main.rs, src/audio.rs, src/transcribe.rs), together with theorems
about its session state machine, audio accumulation buffer, streaming
sender and receiver loops, and sample encoding.

Conventions of the embedding:
* f32 audio samples are modelled as exact rationals; the cast
  from clamped float to i16 in Rust rounds toward zero, which is
  truncQ below.
* The asynchronous environment of one session (overlay spawn outcome,
  result of the streaming task, samples returned by stop_recording,
  batch request outcome) is an explicit SessionEnv record, and the
  observable side effects of the event-loop code are an explicit
  Effect list in program order.
* The sender loop of streaming_transcription observes the shared
  buffer through snapshots; its environment is the list of per-tick
  observations (stop flag, snapshot, write success).
-/

namespace JustTalk

/-- State enum from src/main.rs lines 30-34. -/
inductive State
  | Idle
  | Recording
deriving DecidableEq, Repr

/-- KeyEvent enum from src/input.rs lines 7-11. -/
inductive KeyEvent
  | AltGrPressed
  | AltGrReleased
deriving DecidableEq, Repr

/-! ## Sample encoding (src/main.rs samples_to_s16le, src/audio.rs write_wav) -/

/-- Truncation toward zero, the semantics of the Rust float-to-i16 cast
applied to a value already clamped into range. -/
def truncQ (q : ℚ) : ℤ := if 0 ≤ q then ⌊q⌋ else ⌈q⌉

/-- Rust f32 clamp: max of lo and min of the value and hi. -/
def clampQ (q lo hi : ℚ) : ℚ := max lo (min q hi)

/-- The 16-bit value computed per sample by samples_to_s16le
(src/main.rs line 341): (s * 32767.0).clamp(-32768.0, 32767.0) as i16. -/
def streamEncode (s : ℚ) : ℤ := truncQ (clampQ (s * 32767) (-32768) 32767)

/-- The 16-bit value computed per sample by AudioCapture::write_wav
(src/audio.rs line 113): (sample * 32767.0).clamp(-32768.0, 32767.0) as i16. -/
def wavEncode (s : ℚ) : ℤ := truncQ (clampQ (s * 32767) (-32768) 32767)

/-- Little-endian byte pair of a 16-bit value, as in i.to_le_bytes(). -/
def i16ToLE (i : ℤ) : List ℕ := [(i % 65536).toNat % 256, (i % 65536).toNat / 256]

/-- Byte buffer produced by samples_to_s16le (src/main.rs lines 338-345). -/
def samples_to_s16le (ss : List ℚ) : List ℕ :=
  (ss.map (fun s => i16ToLE (streamEncode s))).flatten

/-! ## Audio buffer (src/audio.rs) -/

/-- The shared capture state: the sample buffer and the recording flag. -/
structure BufState where
  data : List ℚ
  recording : Bool
deriving DecidableEq, Repr

/-- AudioCapture::start_recording (src/audio.rs lines 88-92): clear the
buffer, then arm the recording flag. -/
def start_recording (_b : BufState) : BufState :=
  { data := [], recording := true }

/-- AudioCapture::stop_recording (src/audio.rs lines 95-101): disarm the
flag, then take the accumulated samples, leaving the buffer empty. -/
def stop_recording (b : BufState) : BufState × List ℚ :=
  ({ data := [], recording := false }, b.data)

/-- The cpal input callback (src/audio.rs lines 57-63): append the incoming
frame only while the recording flag is set. -/
def captureCallback (b : BufState) (frame : List ℚ) : BufState :=
  if b.recording then { b with data := b.data ++ frame } else b

/-- Operations that touch the shared buffer. -/
inductive BufOp
  | opStart
  | opStop
  | opAppend (frame : List ℚ)

/-- Run a sequence of buffer operations from a starting state. -/
def runOps (b : BufState) : List BufOp → BufState
  | [] => b
  | BufOp.opStart :: rest => runOps (start_recording b) rest
  | BufOp.opStop :: rest => runOps (stop_recording b).1 rest
  | BufOp.opAppend f :: rest => runOps (captureCallback b f) rest

/-! ## Streaming sender loop (src/main.rs lines 284-314) -/

/-- One tick of the sender loop environment: the stop flag as read at the
top of the iteration, the buffer snapshot the iteration would take, and
whether the non-stop-path WebSocket send succeeds. -/
structure SendTick (α : Type) where
  stop : Bool
  snap : List α
  sendOk : Bool
deriving DecidableEq

/-- Observable outputs of the sender loop: an audio frame holding the
sample range [lo, hi) with its payload, or the final done marker. -/
inductive SenderEvent (α : Type)
  | frame (lo hi : ℕ) (payload : List α)
  | done
deriving DecidableEq

/-- The sender loop of streaming_transcription, src/main.rs lines 288-314.
The second argument is last_sent. On a stop tick it flushes the unsent
remainder and emits done; otherwise it sends the new samples if any exist
(breaking on a failed send) and advances last_sent. -/
def senderLoop {α : Type} : List (SendTick α) → ℕ → List (SenderEvent α)
  | [], _ => []
  | t :: rest, k =>
    if t.stop then
      (if k < t.snap.length then
        [SenderEvent.frame k t.snap.length (t.snap.drop k)]
      else []) ++ [SenderEvent.done]
    else if k < t.snap.length then
      if t.sendOk then
        SenderEvent.frame k t.snap.length (t.snap.drop k) ::
          senderLoop rest t.snap.length
      else [SenderEvent.frame k t.snap.length (t.snap.drop k)]
    else senderLoop rest k

/-- The buffer is append-only while a session streams, so every snapshot
extends the previous one: each observed snapshot has the previous one as
its take-front. -/
def SnapChain {α : Type} : List α → List (SendTick α) → Prop
  | _, [] => True
  | prev, t :: rest => prev = t.snap.take prev.length ∧ SnapChain t.snap rest

/-- Well-formed event sequence from cursor position k: frames carry
contiguous, strictly increasing ranges, and nothing follows done. -/
def EventsChain {α : Type} : ℕ → List (SenderEvent α) → Prop
  | _, [] => True
  | _, SenderEvent.done :: rest => rest = []
  | k, SenderEvent.frame lo hi _ :: rest => lo = k ∧ k < hi ∧ EventsChain hi rest

/-- Concatenation of all frame payloads in an event sequence. -/
def concatFrames {α : Type} : List (SenderEvent α) → List α
  | [] => []
  | SenderEvent.frame _ _ p :: rest => p ++ concatFrames rest
  | SenderEvent.done :: rest => concatFrames rest

/-! ## Streaming receiver loop (src/main.rs lines 248-282) -/

/-- Minimal JSON value model for the serde_json values the receiver
inspects. -/
inductive JVal
  | null
  | bool (b : Bool)
  | num (q : ℚ)
  | str (s : String)
  | arr (n : ℕ)
  | obj (fields : List (String × JVal))

/-- serde_json indexing data[key]: the field value in an object, Null when
the key is absent or the value is not an object. -/
def JVal.getField : JVal → String → JVal
  | JVal.obj fields, key =>
    match fields.find? (fun p => p.1 == key) with
    | some p => p.2
    | none => JVal.null
  | _, _ => JVal.null

/-- serde_json Value::as_str: some only for strings. -/
def JVal.asStr : JVal → Option String
  | JVal.str s => some s
  | _ => none

/-- One item of the receiver loop input stream: a text frame with its JSON
parse outcome (none models invalid JSON), a binary frame, any other frame
kind, or a read error. -/
inductive WsIncoming
  | textMsg (parsed : Option JVal)
  | binaryMsg
  | otherMsg
  | readErr

/-- The receiver task of streaming_transcription, src/main.rs lines
248-282. Returns the captured final text and the list of partial texts
forwarded to the overlay, in order. -/
def recvLoop : List WsIncoming → String × List String
  | [] => ("", [])
  | WsIncoming.readErr :: _ => ("", [])
  | WsIncoming.binaryMsg :: rest => recvLoop rest
  | WsIncoming.otherMsg :: rest => recvLoop rest
  | WsIncoming.textMsg none :: rest => recvLoop rest
  | WsIncoming.textMsg (some data) :: rest =>
    let ty := (data.getField "type").asStr
    if ty = some "partial" then
      match (data.getField "text").asStr with
      | some t =>
        let r := recvLoop rest
        (r.1, t :: r.2)
      | none => recvLoop rest
    else if ty = some "final" then
      match (data.getField "text").asStr with
      | some t => (t, [])
      | none => ("", [])
    else recvLoop rest

/-! ## Session orchestration (src/main.rs main, lines 61-227) -/

/-- Outcome of awaiting the spawned streaming task with its 15 s timeout:
the timeout elapsed, the task panicked, the task returned Err (for
example the WebSocket connect failed), or it returned Ok with the
captured final text. -/
inductive StreamOutcome
  | timeout
  | joinError
  | taskError
  | finished (text : String)
deriving DecidableEq, Repr

/-- The guard on line 127: the streaming result is used only when it is
Ok(Ok(Ok(text))) with nonempty text. -/
def streamUsable : StreamOutcome → Bool
  | StreamOutcome.finished t => !t.isEmpty
  | _ => false

/-- Environment of one press-to-release interaction: whether
overlay::spawn_overlay succeeds, the awaited streaming outcome, the
samples returned by stop_recording, and the batch transcribe result
(none models Err). -/
structure SessionEnv where
  overlaySpawnOk : Bool
  streamResult : StreamOutcome
  samples : List ℚ
  batchResult : Option String
deriving DecidableEq, Repr

/-- Observable side effects of the event loop, in program order. -/
inductive Effect
  | startRecording
  | spawnStream
  | signalFinish
  | awaitDrain
  | stopRecording
  | batchRequest (samples : List ℚ)
  | overlayUpdate (t : String)
  | overlayFinish (t : String)
  | overlayClose
  | paste (t : String)
deriving DecidableEq, Repr

/-- The duration test on lines 115-117 and 190-192:
samples.len() as f32 / 16000.0 < 0.3. Both sides are exactly the f32
nearest 0.3 when len = 4800, and the quotient stays strictly below it
for every len < 4800, so the test holds exactly when len < 4800. -/
def tooShort (samples : List ℚ) : Bool := samples.length < 4800

/-- Lines 126-162: resolve the final text after the streaming await,
either from a usable streaming result or through the batch fallback.
Returns none when the fallback request itself failed (the continue on
line 158), together with the effects of this resolution step. -/
def resolveFinal (env : SessionEnv) : Option String × List Effect :=
  match env.streamResult with
  | StreamOutcome.finished t =>
    if !t.isEmpty then (some t, [])
    else fallbackCall env
  | _ => fallbackCall env
where
  /-- Lines 140-160: write the WAV from the stopped samples and issue the
  batch request once; on Err show the unreachable notice and close. -/
  fallbackCall (env : SessionEnv) : Option String × List Effect :=
    match env.batchResult with
    | some t => (some t, [Effect.batchRequest env.samples])
    | none =>
      (none,
        [Effect.batchRequest env.samples,
         Effect.overlayUpdate "Transcription server unreachable",
         Effect.overlayClose])

/-- Lines 103-181: the release handling of the successful-overlay path.
Signal the pipeline to finish, await the drain with its bounded timeout,
stop recording, apply the duration policy, resolve the final text, and
deliver it when nonempty. Every branch returns to Idle. -/
def resolveOverlay (env : SessionEnv) : State × List Effect :=
  let drain := [Effect.signalFinish, Effect.awaitDrain, Effect.stopRecording]
  if tooShort env.samples then
    (State.Idle, drain ++ [Effect.overlayClose])
  else
    match resolveFinal env with
    | (none, effs) => (State.Idle, drain ++ effs)
    | (some t, effs) =>
      if t.isEmpty then (State.Idle, drain ++ effs ++ [Effect.overlayClose])
      else
        (State.Idle,
          drain ++ effs ++ [Effect.overlayFinish t, Effect.paste t])

/-- overlay::spawn_overlay (src/overlay.rs lines 94-102): it creates a
channel, spawns the overlay thread and unconditionally returns Ok, so on
every reachable execution the overlay spawn succeeds and the Err branch
on lines 68-75 of main.rs is dead. -/
def spawn_overlay_succeeds : Bool := true

/-- Lines 63-186: the Idle + Pressed arm with the overlay enabled. Start
recording; if the overlay spawns, spawn the streaming task and handle
the whole interaction through release; if spawning fails, stay armed in
state Recording with no streaming task. -/
def overlaySession (env : SessionEnv) : State × List Effect :=
  if env.overlaySpawnOk then
    let r := resolveOverlay env
    (r.1, Effect.startRecording :: Effect.spawnStream :: r.2)
  else (State.Recording, [Effect.startRecording])

/-- Lines 188-217: the Recording + Released arm in no-overlay mode. -/
def releaseNoOverlay (env : SessionEnv) : State × List Effect :=
  if tooShort env.samples then (State.Idle, [Effect.stopRecording])
  else
    match env.batchResult with
    | some t =>
      if t.isEmpty then
        (State.Idle, [Effect.stopRecording, Effect.batchRequest env.samples])
      else
        (State.Idle,
          [Effect.stopRecording, Effect.batchRequest env.samples,
           Effect.paste t])
    | none =>
      (State.Idle, [Effect.stopRecording, Effect.batchRequest env.samples])

/-- The match over (state, event) in the main loop, lines 62-223. The
Recording + Released arm with the overlay enabled is the empty arm on
line 222. -/
def step (noOverlay : Bool) (st : State) (ev : KeyEvent) (env : SessionEnv) :
    State × List Effect :=
  match st, ev with
  | State.Idle, KeyEvent.AltGrPressed =>
    if noOverlay then (State.Recording, [Effect.startRecording])
    else overlaySession env
  | State.Recording, KeyEvent.AltGrReleased =>
    if noOverlay then releaseNoOverlay env else (State.Recording, [])
  | State.Idle, KeyEvent.AltGrReleased => (State.Idle, [])
  | State.Recording, KeyEvent.AltGrPressed => (State.Recording, [])

/-- Recognizer for batch request effects. -/
def isBatchEff : Effect → Bool
  | Effect.batchRequest _ => true
  | _ => false

/-- Recognizer for paste effects. -/
def isPasteEff : Effect → Bool
  | Effect.paste _ => true
  | _ => false

/-! ## Helper lemmas for the sender loop -/

lemma length_le_of_take_eq {α : Type} {prev snap : List α}
    (h : prev = snap.take prev.length) : prev.length ≤ snap.length := by
  have h2 := congrArg List.length h
  simp only [List.length_take] at h2
  omega

lemma snapChain_find_take {α : Type} :
    ∀ (l : List (SendTick α)) (prev : List α), SnapChain prev l →
      ∀ s, List.find? (fun t => t.stop) l = some s →
        prev = s.snap.take prev.length := by
  intro l
  induction l with
  | nil =>
    intro prev h s hf
    simp at hf
  | cons t rest ih =>
    intro prev h s hf
    obtain ⟨hpre, hch⟩ := h
    by_cases hstop : t.stop
    · rw [List.find?_cons_of_pos _ (by simpa using hstop)] at hf
      cases hf
      exact hpre
    · rw [List.find?_cons_of_neg _ (by simpa using hstop)] at hf
      have h2 := ih t.snap hch s hf
      have hle := length_le_of_take_eq hpre
      calc prev = (s.snap.take t.snap.length).take prev.length := by
            rw [← h2]; exact hpre
        _ = s.snap.take (min prev.length t.snap.length) := by
            rw [List.take_take]
        _ = s.snap.take prev.length := by rw [min_eq_left hle]

lemma senderLoop_spec {α : Type} :
    ∀ (ticks : List (SendTick α)) (prev : List α) (k : ℕ),
      SnapChain prev ticks → k ≤ prev.length →
      EventsChain k (senderLoop ticks k) ∧
      (∀ s, List.find? (fun t => t.stop) ticks = some s →
        SenderEvent.done ∈ senderLoop ticks k →
        concatFrames (senderLoop ticks k) = s.snap.drop k) := by
  intro ticks
  induction ticks with
  | nil =>
    intro prev k h hk
    refine ⟨trivial, ?_⟩
    intro s hf
    simp at hf
  | cons t rest ih =>
    intro prev k h hk
    obtain ⟨hpre, hch⟩ := h
    have hlen : prev.length ≤ t.snap.length := length_le_of_take_eq hpre
    have hk2 : k ≤ t.snap.length := le_trans hk hlen
    by_cases hstop : t.stop
    · -- the stop tick: flush the remainder, then emit done
      by_cases hlt : k < t.snap.length
      · refine ⟨?_, ?_⟩
        · simp only [senderLoop, hstop, if_true, hlt]
          exact ⟨rfl, hlt, rfl⟩
        · intro s hf _
          rw [List.find?_cons_of_pos _ (by simpa using hstop)] at hf
          cases hf
          simp [senderLoop, hstop, hlt, concatFrames]
      · refine ⟨?_, ?_⟩
        · simp only [senderLoop, hstop, if_true, hlt, if_false]
          simp [EventsChain]
        · intro s hf _
          rw [List.find?_cons_of_pos _ (by simpa using hstop)] at hf
          cases hf
          have hge : t.snap.length ≤ k := Nat.le_of_not_lt hlt
          simp [senderLoop, hstop, hlt, concatFrames,
            List.drop_eq_nil_of_le hge]
    · -- a regular tick
      by_cases hlt : k < t.snap.length
      · by_cases hok : t.sendOk
        · -- send the new range and continue with the cursor advanced
          obtain ⟨ih1, ih2⟩ := ih t.snap t.snap.length hch (le_refl _)
          refine ⟨?_, ?_⟩
          · simp only [senderLoop, hstop, if_false, hlt, if_true, hok]
            exact ⟨rfl, hlt, ih1⟩
          · intro s hf hdone
            rw [List.find?_cons_of_neg _ (by simpa using hstop)] at hf
            have hdone2 : SenderEvent.done ∈ senderLoop rest t.snap.length := by
              simpa [senderLoop, hstop, hlt, hok] using hdone
            have hcat := ih2 s hf hdone2
            have htake := snapChain_find_take rest t.snap hch s hf
            simp only [senderLoop, hstop, if_false, hlt, if_true, hok,
              concatFrames, hcat]
            -- t.snap is the take-front of the stop snapshot s.snap
            have h5 : List.drop k t.snap =
                (List.drop k s.snap).take (t.snap.length - k) := by
              conv_lhs => rw [htake]
              rw [List.drop_take]
            have h6 : (List.drop k s.snap).drop (t.snap.length - k) =
                List.drop t.snap.length s.snap := by
              rw [List.drop_drop]
              congr 1
              omega
            rw [h5, ← h6, List.take_append_drop]
        · -- the send failed: the loop breaks after this frame
          refine ⟨?_, ?_⟩
          · simp only [senderLoop, hstop, if_false, hlt, if_true, hok]
            exact ⟨rfl, hlt, trivial⟩
          · intro s hf hdone
            simp [senderLoop, hstop, hlt, hok] at hdone
      · -- no new samples on this tick: nothing is sent
        obtain ⟨ih1, ih2⟩ := ih t.snap k hch hk2
        refine ⟨?_, ?_⟩
        · simpa only [senderLoop, hstop, if_false, hlt] using ih1
        · intro s hf hdone
          rw [List.find?_cons_of_neg _ (by simpa using hstop)] at hf
          simp only [senderLoop, hstop, if_false, hlt] at hdone ⊢
          exact ih2 s hf hdone

/-! ## Claims -/

/-- C4: within one streaming session the sent sample ranges are strictly
increasing and non-overlapping (the cursor never rewinds, and ticks with
no new samples send nothing), concatenating all sent ranges reconstructs
the full captured buffer at the moment done was sent, and the done
marker comes only after every prior audio frame including the final
remainder. -/
theorem c4_cursor_monotone {α : Type} (ticks : List (SendTick α))
    (h : SnapChain [] ticks) :
    EventsChain 0 (senderLoop ticks 0) ∧
    (∀ s, List.find? (fun t => t.stop) ticks = some s →
      SenderEvent.done ∈ senderLoop ticks 0 →
      concatFrames (senderLoop ticks 0) = s.snap) ∧
    (∀ (t : SendTick α) (rest : List (SendTick α)) (k : ℕ),
      t.stop = false → t.snap.length ≤ k →
      senderLoop (t :: rest) k = senderLoop rest k) := by
  obtain ⟨h1, h2⟩ := senderLoop_spec ticks [] 0 h (le_refl 0)
  refine ⟨h1, fun s hf hd => by simpa using h2 s hf hd, ?_⟩
  intro t rest k hstop hle
  simp [senderLoop, hstop, Nat.not_lt.mpr hle]

/-- Witness for C4 at a concrete three-tick session over the buffer
[5, 6, 7]. -/
theorem c4_cursor_monotone_witness :
    SnapChain ([] : List ℕ)
      [⟨false, [5], true⟩, ⟨false, [5, 6], true⟩, ⟨true, [5, 6, 7], true⟩] ∧
    EventsChain 0 (senderLoop
      [⟨false, [5], true⟩, ⟨false, [5, 6], true⟩, ⟨true, [5, 6, 7], true⟩] 0) ∧
    concatFrames (senderLoop
      [⟨false, [5], true⟩, ⟨false, [5, 6], true⟩, ⟨true, [5, 6, 7], true⟩] 0) =
      [5, 6, 7] := by
  have hc : SnapChain ([] : List ℕ)
      [⟨false, [5], true⟩, ⟨false, [5, 6], true⟩, ⟨true, [5, 6, 7], true⟩] := by
    simp [SnapChain]
  have h := c4_cursor_monotone
    [⟨false, [5], true⟩, ⟨false, [5, 6], true⟩, ⟨true, [5, 6, 7], true⟩] hc
  refine ⟨hc, h.1, h.2.1 ⟨true, [5, 6, 7], true⟩ ?_ ?_⟩
  · decide
  · decide

/-- C5: the amplitude-to-integer conversion is truncation toward zero of
sample times 32767 clamped to [-32768, 32767]; 1.0 encodes to 32767,
-1.5 encodes to -32768, 0.0 encodes to 0, and the streaming encoder and
the batch WAV encoder agree on every sample. -/
theorem c5_amplitude_encoding :
    (∀ s : ℚ, streamEncode s = wavEncode s) ∧
    (∀ s : ℚ, streamEncode s = truncQ (clampQ (s * 32767) (-32768) 32767)) ∧
    streamEncode 1 = 32767 ∧ streamEncode (-(3 / 2)) = -32768 ∧
    streamEncode 0 = 0 ∧ wavEncode 1 = 32767 ∧
    wavEncode (-(3 / 2)) = -32768 ∧ wavEncode 0 = 0 := by
  have hceil : ⌈(-32768 : ℚ)⌉ = -32768 := by
    rw [show (-32768 : ℚ) = ((-32768 : ℤ) : ℚ) from by norm_num, Int.ceil_intCast]
  refine ⟨fun s => rfl, fun s => rfl, ?_, ?_, ?_, ?_, ?_, ?_⟩ <;>
    norm_num [streamEncode, wavEncode, clampQ, truncQ, hceil]

/-- C6: the buffer never carries samples across sessions: start clears
the buffer before arming, so the state after a start is independent of
all previous history, and while disarmed the capture callback appends
nothing. -/
theorem c6_buffer_single_session (b bb : BufState) (f : List ℚ)
    (ops : List BufOp) (h : b.recording = false) :
    (start_recording b).data = [] ∧
    captureCallback b f = b ∧
    runOps (start_recording b) ops = runOps (start_recording bb) ops := by
  refine ⟨rfl, ?_, rfl⟩
  simp [captureCallback, h]

/-- Witness for C6 at a concrete disarmed state holding samples from an
earlier session. -/
theorem c6_buffer_single_session_witness :
    (start_recording ⟨[1], false⟩).data = [] ∧
    captureCallback ⟨[1], false⟩ [2] = ⟨[1], false⟩ ∧
    runOps (start_recording ⟨[1], false⟩) [BufOp.opAppend [3]] =
      runOps (start_recording ⟨[], true⟩) [BufOp.opAppend [3]] :=
  c6_buffer_single_session ⟨[1], false⟩ ⟨[], true⟩ [2] [BufOp.opAppend [3]] rfl

/-- C7: repeated Pressed events while Recording and repeated Released
events while Idle leave the state unchanged and produce no side
effects. -/
theorem c7_idempotent_noops (noOverlay : Bool) (env : SessionEnv) :
    step noOverlay State.Recording KeyEvent.AltGrPressed env =
      (State.Recording, ([] : List Effect)) ∧
    step noOverlay State.Idle KeyEvent.AltGrReleased env =
      (State.Idle, ([] : List Effect)) :=
  ⟨rfl, rfl⟩

/-! ## Helper lemmas for the session model -/

lemma resolveFinal_no_paste (e : SessionEnv) (t : String) :
    Effect.paste t ∉ (resolveFinal e).2 := by
  have hfb : Effect.paste t ∉ (resolveFinal.fallbackCall e).2 := by
    rcases h : e.batchResult with _ | u <;>
      simp [resolveFinal.fallbackCall, h]
  rcases e with ⟨ok, sr, samples, br⟩
  cases sr <;> simp only [resolveFinal] <;> try exact hfb
  split
  · simp
  · exact hfb

lemma tooShort_replicate_4800 :
    tooShort (List.replicate 4800 (0 : ℚ)) = false := by
  unfold tooShort
  rw [List.length_replicate]
  rfl

lemma filter_paste_nil (effs : List Effect)
    (h : ∀ t, Effect.paste t ∉ effs) :
    effs.filter isPasteEff = [] := by
  rw [List.filter_eq_nil_iff]
  intro e he hp
  cases e <;> simp [isPasteEff] at hp
  exact h _ he

lemma resolveOverlay_paste (env : SessionEnv) :
    ((resolveOverlay env).2.filter isPasteEff).length ≤ 1 ∧
    (∀ t, Effect.paste t ∈ (resolveOverlay env).2 → t.isEmpty = false) := by
  by_cases hts : tooShort env.samples = true
  · constructor
    · simp [resolveOverlay, hts, isPasteEff]
    · intro t ht
      simp [resolveOverlay, hts] at ht
  · have hts2 : tooShort env.samples = false := by simpa using hts
    rcases hrf : resolveFinal env with ⟨res, effs⟩
    have heff : ∀ u, Effect.paste u ∉ effs := by
      intro u
      have h2 := resolveFinal_no_paste env u
      rw [hrf] at h2
      exact h2
    have hfe : effs.filter isPasteEff = [] := filter_paste_nil effs heff
    rcases res with _ | t
    · constructor
      · simp [resolveOverlay, hts2, hrf, isPasteEff, List.filter_append, hfe]
      · intro u hu
        simp [resolveOverlay, hts2, hrf] at hu
        exact absurd hu (heff u)
    · by_cases hte : t.isEmpty = true
      · constructor
        · simp [resolveOverlay, hts2, hrf, hte, isPasteEff,
            List.filter_append, hfe]
        · intro u hu
          simp [resolveOverlay, hts2, hrf, hte] at hu
          exact absurd hu (heff u)
      · have hte2 : t.isEmpty = false := by simpa using hte
        constructor
        · simp [resolveOverlay, hts2, hrf, hte2, isPasteEff,
            List.filter_append, hfe]
        · intro u hu
          simp [resolveOverlay, hts2, hrf, hte2] at hu
          rcases hu with hu | hu
          · exact absurd hu (heff u)
          · rw [hu]
            exact hte2

lemma releaseNoOverlay_no_stream (env : SessionEnv) :
    Effect.spawnStream ∉ (releaseNoOverlay env).2 := by
  rcases env with ⟨ok, sr, samples, br⟩
  by_cases hts : tooShort samples = true
  · simp [releaseNoOverlay, hts]
  · have hts2 : tooShort samples = false := by simpa using hts
    rcases br with _ | u
    · simp [releaseNoOverlay, hts2]
    · by_cases hu : u.isEmpty = true <;> simp_all [releaseNoOverlay, hts2]

lemma releaseNoOverlay_batch (env : SessionEnv)
    (h : tooShort env.samples = false) :
    (releaseNoOverlay env).2.filter isBatchEff =
      [Effect.batchRequest env.samples] := by
  rcases env with ⟨ok, sr, samples, br⟩
  simp only at h
  rcases br with _ | u
  · simp [releaseNoOverlay, h, isBatchEff]
  · by_cases hu : u.isEmpty = true <;> simp_all [releaseNoOverlay, isBatchEff]

/-- C1 as stated is false on the code: with the overlay enabled, the
streaming task, which opens the WebSocket connection and transmits
frames, is spawned at press, before the captured duration is known, so
a session of duration 0 (below 0.3 s) still issues streaming traffic;
its sender loop even emits the done control frame for an empty buffer. -/
theorem c1_short_session_counterexample :
    tooShort ([] : List ℚ) = true ∧
    Effect.spawnStream ∈
      (step false State.Idle KeyEvent.AltGrPressed
        ⟨true, StreamOutcome.timeout, [], none⟩).2 ∧
    senderLoop [⟨true, ([] : List ℚ), true⟩] 0 = [SenderEvent.done] := by
  refine ⟨rfl, ?_, rfl⟩
  simp [step, overlaySession, resolveOverlay, tooShort]

/-- C1 amended: for every session whose captured duration is below 0.3 s
no batch transcription request is issued and no text is delivered, and
in no-overlay mode no streaming connection is opened either; with the
overlay enabled the streaming connection is opened at press, before the
duration is known. -/
theorem c1_short_session_amended (noOverlay : Bool) (st : State)
    (ev : KeyEvent) (env : SessionEnv) (h : tooShort env.samples = true) :
    (∀ s, Effect.batchRequest s ∉ (step noOverlay st ev env).2) ∧
    (∀ t, Effect.paste t ∉ (step noOverlay st ev env).2) ∧
    (noOverlay = true → Effect.spawnStream ∉ (step noOverlay st ev env).2) := by
  rcases env with ⟨ok, sr, samples, br⟩
  simp only at h
  cases st <;> cases ev <;> cases noOverlay <;> cases ok <;>
    simp [step, overlaySession, releaseNoOverlay, resolveOverlay, h]

/-- Witness for C1 amended at a concrete empty-capture session in
no-overlay mode. -/
theorem c1_short_session_witness :
    Effect.batchRequest [] ∉
      (step true State.Idle KeyEvent.AltGrPressed
        ⟨true, StreamOutcome.timeout, [], none⟩).2 ∧
    Effect.paste "hello" ∉
      (step true State.Idle KeyEvent.AltGrPressed
        ⟨true, StreamOutcome.timeout, [], none⟩).2 ∧
    Effect.spawnStream ∉
      (step true State.Idle KeyEvent.AltGrPressed
        ⟨true, StreamOutcome.timeout, [], none⟩).2 :=
  ⟨(c1_short_session_amended true State.Idle KeyEvent.AltGrPressed
      ⟨true, StreamOutcome.timeout, [], none⟩ rfl).1 [],
   (c1_short_session_amended true State.Idle KeyEvent.AltGrPressed
      ⟨true, StreamOutcome.timeout, [], none⟩ rfl).2.1 "hello",
   (c1_short_session_amended true State.Idle KeyEvent.AltGrPressed
      ⟨true, StreamOutcome.timeout, [], none⟩ rfl).2.2 rfl⟩

/-- C2: on every reachable execution a Release received while recording
drives the session back to Idle with the required drain discipline.
Since spawn_overlay is infallible, overlaySpawnOk is true on reachable
executions, so the release of an overlay session is handled by the
inner loop: its handling emits signalFinish (stop flag set, line 104),
awaitDrain (the bounded 15 s await, line 107) and stopRecording
(line 114) in that order before anything else, resolves the transcript,
and every branch ends in state Idle; the whole press-to-release
interaction therefore ends in Idle. In no-overlay mode the guarded
release arm disarms capture first and likewise ends in Idle. -/
theorem c2_release_in_recording (env : SessionEnv)
    (h : env.overlaySpawnOk = spawn_overlay_succeeds) :
    ((resolveOverlay env).1 = State.Idle ∧
     (resolveOverlay env).2.take 3 =
       [Effect.signalFinish, Effect.awaitDrain, Effect.stopRecording]) ∧
    (step false State.Idle KeyEvent.AltGrPressed env).1 = State.Idle ∧
    ((step true State.Recording KeyEvent.AltGrReleased env).1 = State.Idle ∧
     (step true State.Recording KeyEvent.AltGrReleased env).2.take 1 =
       [Effect.stopRecording]) := by
  have hro : (resolveOverlay env).1 = State.Idle ∧
      (resolveOverlay env).2.take 3 =
        [Effect.signalFinish, Effect.awaitDrain, Effect.stopRecording] := by
    by_cases hts : tooShort env.samples = true
    · simp [resolveOverlay, hts]
    · have hts2 : tooShort env.samples = false := by simpa using hts
      rcases hrf : resolveFinal env with ⟨res, effs⟩
      rcases res with _ | t
      · simp [resolveOverlay, hts2, hrf]
      · by_cases hte : t.isEmpty = true
        · simp [resolveOverlay, hts2, hrf, hte]
        · have hte2 : t.isEmpty = false := by simpa using hte
          simp [resolveOverlay, hts2, hrf, hte2]
  refine ⟨hro, ?_, ?_⟩
  · simp [step, overlaySession, h, spawn_overlay_succeeds, hro.1]
  · by_cases hts : tooShort env.samples = true
    · simp [step, releaseNoOverlay, hts]
    · have hts2 : tooShort env.samples = false := by simpa using hts
      rcases hbr : env.batchResult with _ | u
      · simp [step, releaseNoOverlay, hts2, hbr]
      · by_cases hu : u.isEmpty = true
        · simp [step, releaseNoOverlay, hts2, hbr, hu]
        · have hu2 : u.isEmpty = false := by simpa using hu
          simp [step, releaseNoOverlay, hts2, hbr, hu2]

/-- Witness for C2 at a concrete reachable session. -/
theorem c2_release_in_recording_witness :
    ((resolveOverlay ⟨true, StreamOutcome.timeout, [], none⟩).1 =
        State.Idle ∧
     (resolveOverlay ⟨true, StreamOutcome.timeout, [], none⟩).2.take 3 =
       [Effect.signalFinish, Effect.awaitDrain, Effect.stopRecording]) ∧
    (step false State.Idle KeyEvent.AltGrPressed
      ⟨true, StreamOutcome.timeout, [], none⟩).1 = State.Idle ∧
    ((step true State.Recording KeyEvent.AltGrReleased
        ⟨true, StreamOutcome.timeout, [], none⟩).1 = State.Idle ∧
     (step true State.Recording KeyEvent.AltGrReleased
        ⟨true, StreamOutcome.timeout, [], none⟩).2.take 1 =
       [Effect.stopRecording]) :=
  c2_release_in_recording ⟨true, StreamOutcome.timeout, [], none⟩ rfl

/-- C3: when the streaming pipeline yields no usable result (timeout,
task failure, or empty final text) the batch fallback is issued exactly
once, on exactly the samples taken by stop_recording; when streaming
yields nonempty text in time, no batch request is issued. -/
theorem c3_fallback_exactly_once (env : SessionEnv)
    (h : tooShort env.samples = false) :
    (streamUsable env.streamResult = false →
      (resolveOverlay env).2.filter isBatchEff =
        [Effect.batchRequest env.samples]) ∧
    (streamUsable env.streamResult = true →
      (resolveOverlay env).2.filter isBatchEff = []) := by
  rcases env with ⟨ok, sr, samples, br⟩
  simp only at h
  constructor
  · intro hu
    have hres : resolveFinal ⟨ok, sr, samples, br⟩ =
        resolveFinal.fallbackCall ⟨ok, sr, samples, br⟩ := by
      cases sr with
      | finished t =>
        have ht : t.isEmpty = true := by simpa [streamUsable] using hu
        simp [resolveFinal, ht]
      | timeout => rfl
      | joinError => rfl
      | taskError => rfl
    rcases br with _ | u
    · simp [resolveOverlay, hres, resolveFinal.fallbackCall, h, isBatchEff]
    · by_cases hu2 : u.isEmpty = true <;>
        simp_all [resolveOverlay, hres, resolveFinal.fallbackCall, isBatchEff]
  · intro hu
    cases sr with
    | finished t =>
      have ht : t.isEmpty = false := by simpa [streamUsable] using hu
      simp [resolveOverlay, resolveFinal, h, ht, isBatchEff]
    | timeout => simp [streamUsable] at hu
    | joinError => simp [streamUsable] at hu
    | taskError => simp [streamUsable] at hu

/-- Witness for C3 with a 0.3 s capture, a streaming timeout, and a
failed batch request. -/
theorem c3_fallback_exactly_once_witness :
    tooShort (List.replicate 4800 (0 : ℚ)) = false ∧
    (resolveOverlay ⟨true, StreamOutcome.timeout,
        List.replicate 4800 (0 : ℚ), none⟩).2.filter isBatchEff =
      [Effect.batchRequest (List.replicate 4800 (0 : ℚ))] := by
  have h := tooShort_replicate_4800
  exact ⟨h, (c3_fallback_exactly_once
    ⟨true, StreamOutcome.timeout, List.replicate 4800 (0 : ℚ), none⟩ h).1 rfl⟩

/-- C8: per session the paste collaborator is invoked at most once, and
only with nonempty final text. -/
theorem c8_paste_at_most_once (noOverlay : Bool) (st : State)
    (ev : KeyEvent) (env : SessionEnv) :
    ((step noOverlay st ev env).2.filter isPasteEff).length ≤ 1 ∧
    (∀ t, Effect.paste t ∈ (step noOverlay st ev env).2 →
      t.isEmpty = false) := by
  cases st with
  | Idle =>
    cases ev with
    | AltGrPressed =>
      cases noOverlay with
      | true => simp [step, isPasteEff]
      | false =>
        by_cases hok : env.overlaySpawnOk = true
        · have h := resolveOverlay_paste env
          constructor
          · simpa [step, overlaySession, hok, isPasteEff] using h.1
          · intro t ht
            apply h.2 t
            simpa [step, overlaySession, hok] using ht
        · have hok2 : env.overlaySpawnOk = false := by simpa using hok
          simp [step, overlaySession, hok2, isPasteEff]
    | AltGrReleased => simp [step, isPasteEff]
  | Recording =>
    cases ev with
    | AltGrPressed => simp [step, isPasteEff]
    | AltGrReleased =>
      cases noOverlay with
      | false => simp [step, isPasteEff]
      | true =>
        rcases env with ⟨ok, sr, samples, br⟩
        by_cases hts : tooShort samples = true
        · simp [step, releaseNoOverlay, hts, isPasteEff]
        · have hts2 : tooShort samples = false := by simpa using hts
          rcases br with _ | u
          · simp [step, releaseNoOverlay, hts2, isPasteEff]
          · by_cases hu : u.isEmpty = true
            · simp [step, releaseNoOverlay, hts2, hu, isPasteEff]
            · have hu2 : u.isEmpty = false := by simpa using hu
              simp [step, releaseNoOverlay, hts2, hu2, isPasteEff]

/-- Witness for C8 at a concrete no-overlay session delivering "hi". -/
theorem c8_paste_at_most_once_witness :
    ((step true State.Recording KeyEvent.AltGrReleased
        ⟨true, StreamOutcome.timeout, List.replicate 4800 (0 : ℚ),
          some "hi"⟩).2.filter isPasteEff).length ≤ 1 ∧
    "hi".isEmpty = false := by
  have h := c8_paste_at_most_once true State.Recording KeyEvent.AltGrReleased
    ⟨true, StreamOutcome.timeout, List.replicate 4800 (0 : ℚ), some "hi"⟩
  refine ⟨h.1, h.2 "hi" ?_⟩
  have hie : "hi".isEmpty = false := rfl
  simp only [step, releaseNoOverlay, tooShort_replicate_4800, hie,
    Bool.false_eq_true, if_false, if_true, List.mem_cons]
  exact Or.inr (Or.inr (Or.inl trivial))

/-- C9: in no-overlay mode no step ever opens the streaming connection,
nor does a session whose overlay spawn failed; and in no-overlay mode a
sufficiently long recording is transcribed solely by the batch upload,
issued exactly once with the full captured samples. -/
theorem c9_no_overlay_solely_batch (st : State) (ev : KeyEvent)
    (env : SessionEnv) :
    Effect.spawnStream ∉ (step true st ev env).2 ∧
    (env.overlaySpawnOk = false →
      Effect.spawnStream ∉ (step false st ev env).2) ∧
    (tooShort env.samples = false →
      (step true State.Recording KeyEvent.AltGrReleased env).2.filter
          isBatchEff = [Effect.batchRequest env.samples]) := by
  refine ⟨?_, ?_, ?_⟩
  · cases st <;> cases ev
    · simp [step]
    · simp [step]
    · simp [step]
    · simpa [step] using releaseNoOverlay_no_stream env
  · intro hok
    cases st <;> cases ev
    · simp [step, overlaySession, hok]
    · simp [step]
    · simp [step]
    · simp [step]
  · intro hts
    simpa [step] using releaseNoOverlay_batch env hts

/-- Witness for C9 at a concrete long session whose overlay spawn
fails. -/
theorem c9_no_overlay_solely_batch_witness :
    Effect.spawnStream ∉
      (step true State.Idle KeyEvent.AltGrPressed
        ⟨false, StreamOutcome.timeout, List.replicate 4800 (0 : ℚ),
          some "ok"⟩).2 ∧
    Effect.spawnStream ∉
      (step false State.Idle KeyEvent.AltGrPressed
        ⟨false, StreamOutcome.timeout, List.replicate 4800 (0 : ℚ),
          some "ok"⟩).2 ∧
    (step true State.Recording KeyEvent.AltGrReleased
        ⟨false, StreamOutcome.timeout, List.replicate 4800 (0 : ℚ),
          some "ok"⟩).2.filter isBatchEff =
      [Effect.batchRequest (List.replicate 4800 (0 : ℚ))] := by
  have h := c9_no_overlay_solely_batch State.Idle KeyEvent.AltGrPressed
    ⟨false, StreamOutcome.timeout, List.replicate 4800 (0 : ℚ), some "ok"⟩
  exact ⟨h.1, h.2.1 rfl, h.2.2 tooShort_replicate_4800⟩

/-- C10: the receiver loop skips non-text frames, invalid JSON, and
unrecognized message types without terminating; a partial is forwarded
exactly when its text field is a string; a final always terminates the
loop, its text taken when it is a string and the empty transcript
otherwise. -/
theorem c10_receiver_dispatch (data : JVal) (rest : List WsIncoming) :
    recvLoop (WsIncoming.binaryMsg :: rest) = recvLoop rest ∧
    recvLoop (WsIncoming.otherMsg :: rest) = recvLoop rest ∧
    recvLoop (WsIncoming.textMsg none :: rest) = recvLoop rest ∧
    ((data.getField "type").asStr ≠ some "partial" →
      (data.getField "type").asStr ≠ some "final" →
      recvLoop (WsIncoming.textMsg (some data) :: rest) = recvLoop rest) ∧
    (∀ t, (data.getField "type").asStr = some "partial" →
      (data.getField "text").asStr = some t →
      recvLoop (WsIncoming.textMsg (some data) :: rest) =
        ((recvLoop rest).1, t :: (recvLoop rest).2)) ∧
    ((data.getField "type").asStr = some "partial" →
      (data.getField "text").asStr = none →
      recvLoop (WsIncoming.textMsg (some data) :: rest) = recvLoop rest) ∧
    ((data.getField "type").asStr = some "final" →
      recvLoop (WsIncoming.textMsg (some data) :: rest) =
        (((data.getField "text").asStr).getD "", [])) := by
  refine ⟨rfl, rfl, rfl, ?_, ?_, ?_, ?_⟩
  · intro h1 h2
    simp [recvLoop, h1, h2]
  · intro t h1 h2
    simp [recvLoop, h1, h2]
  · intro h1 h2
    simp [recvLoop, h1, h2]
  · intro h1
    rcases h2 : (data.getField "text").asStr with _ | t <;>
      simp [recvLoop, h1, h2]

/-- Witness for C10 at a final message whose text field is a number:
the loop terminates with the empty transcript. -/
theorem c10_receiver_dispatch_witness :
    recvLoop
      [WsIncoming.textMsg (some (JVal.obj
        [("type", JVal.str "final"), ("text", JVal.num 3)])),
       WsIncoming.binaryMsg] = ("", []) := by
  have h := (c10_receiver_dispatch
    (JVal.obj [("type", JVal.str "final"), ("text", JVal.num 3)])
    [WsIncoming.binaryMsg]).2.2.2.2.2.2 rfl
  simpa using h

end JustTalk
